import Mathlib

/-!
Verification of the multi-geth block transaction processor
(`core/state_processor.go` together with its SputnikVM external-VM adapter).

The Go functions `StateProcessor.Process`, `ApplyTransaction`,
`applyTransaction`, `precheckSputnikVMTransaction`, `applySputnikTransaction`
and `makeSputnikVMPatch` are embedded shallowly below.  Go's mutable
`*state.StateDB`, `*uint64 usedGas` and `*GasPool` become values threaded
through the functions.  External collaborators that live outside the
processor (the interpreter behind `ApplyMessage`, the SputnikVM FFI core,
keccak-based address derivation, bloom construction, the state trie root)
are oracles gathered in the `Ext` record; the processor code itself never
inspects them beyond the calls the Go source makes.
-/

namespace MultiGeth

/-- A 20-byte account address, modelled as a natural number. -/
abbrev Address := Nat

/-- A 32-byte hash word, modelled as a natural number. -/
abbrev Hash := Nat

/-- Modelled from the spec: `common.Hash.Bytes` of go-ethereum is not under
src/.  A hash value always serialises to exactly 32 bytes (big endian). -/
def hashBytes (h : Hash) : List Nat :=
  (List.range 32).map fun i => h / 256 ^ (31 - i) % 256

/-- A log entry, per §3 of the spec (`types.Log` is not under src/). -/
structure Log where
  address : Address
  topics : List Hash
  data : List Nat
  blockNumber : Nat
  deriving DecidableEq, Repr

/-- A world-state account (the observable part per §6 of the spec). -/
structure Account where
  nonce : Nat
  balance : Int
  code : List Nat
  storage : List (Hash × Hash)
  deriving DecidableEq, Repr

def Account.empty : Account := { nonce := 0, balance := 0, code := [], storage := [] }

/-- Association-list lookup keyed by address. -/
def lookupAcc : List (Address × Account) → Address → Option Account
  | [], _ => none
  | (a, acc) :: rest, x => if a = x then some acc else lookupAcc rest x

/-- Association-list update (replace, or append when absent). -/
def insertAcc : List (Address × Account) → Address → Account → List (Address × Account)
  | [], x, v => [(x, v)]
  | (a, acc) :: rest, x, v =>
    if a = x then (a, v) :: rest else (a, acc) :: insertAcc rest x v

/-- Association-list removal. -/
def removeAcc : List (Address × Account) → Address → List (Address × Account)
  | [], _ => []
  | (a, acc) :: rest, x => if a = x then removeAcc rest x else (a, acc) :: removeAcc rest x

/-- Storage lookup inside one account, zero default. -/
def lookupStorage : List (Hash × Hash) → Hash → Hash
  | [], _ => 0
  | (k, v) :: rest, x => if k = x then v else lookupStorage rest x

/-- Storage update inside one account. -/
def insertStorage : List (Hash × Hash) → Hash → Hash → List (Hash × Hash)
  | [], x, v => [(x, v)]
  | (k, w) :: rest, x, v =>
    if k = x then (k, v) :: rest else (k, w) :: insertStorage rest x v

/-- Modelled from the spec: the mutable world state (`state.StateDB` of
go-ethereum is not under src/).  §6 lists the observable operations; the
trie layer is out of scope (§1), so `finalise` and `intermediate_root` are
recorded in observation traces (their flag argument) and the root itself is
computed by the `rootFn` oracle. -/
structure StateDB where
  accounts : List (Address × Account)
  logs : List (Hash × Log)
  thash : Hash
  bhash : Hash
  txIndex : Nat
  finaliseTrace : List Bool
  rootTrace : List Bool
  deriving DecidableEq, Repr

def StateDB.exist (s : StateDB) (a : Address) : Bool :=
  (lookupAcc s.accounts a).isSome

def StateDB.getAccount (s : StateDB) (a : Address) : Account :=
  (lookupAcc s.accounts a).getD Account.empty

def StateDB.getNonce (s : StateDB) (a : Address) : Nat :=
  (s.getAccount a).nonce

def StateDB.getBalance (s : StateDB) (a : Address) : Int :=
  (s.getAccount a).balance

def StateDB.getCode (s : StateDB) (a : Address) : List Nat :=
  (s.getAccount a).code

def StateDB.getState (s : StateDB) (a : Address) (k : Hash) : Hash :=
  lookupStorage (s.getAccount a).storage k

def StateDB.setAccount (s : StateDB) (a : Address) (acc : Account) : StateDB :=
  { s with accounts := insertAcc s.accounts a acc }

def StateDB.setBalance (s : StateDB) (a : Address) (v : Int) : StateDB :=
  s.setAccount a { s.getAccount a with balance := v }

def StateDB.addBalance (s : StateDB) (a : Address) (amt : Int) : StateDB :=
  s.setBalance a (s.getBalance a + amt)

def StateDB.setNonce (s : StateDB) (a : Address) (n : Nat) : StateDB :=
  s.setAccount a { s.getAccount a with nonce := n }

def StateDB.setCode (s : StateDB) (a : Address) (c : List Nat) : StateDB :=
  s.setAccount a { s.getAccount a with code := c }

def StateDB.setState (s : StateDB) (a : Address) (k v : Hash) : StateDB :=
  s.setAccount a { s.getAccount a with storage := insertStorage (s.getAccount a).storage k v }

def StateDB.suicide (s : StateDB) (a : Address) : StateDB :=
  { s with accounts := removeAcc s.accounts a }

def StateDB.addLog (s : StateDB) (l : Log) : StateDB :=
  { s with logs := s.logs ++ [(s.thash, l)] }

def StateDB.getLogs (s : StateDB) (h : Hash) : List Log :=
  (s.logs.filter fun p => p.1 = h).map Prod.snd

def StateDB.prepare (s : StateDB) (th bh : Hash) (i : Nat) : StateDB :=
  { s with thash := th, bhash := bh, txIndex := i }

/-- `Finalise(deleteEmpty)`: commits pending changes into the (out-of-scope)
trie without producing a root; the flag passed is recorded. -/
def StateDB.finalise (s : StateDB) (deleteEmpty : Bool) : StateDB :=
  { s with finaliseTrace := s.finaliseTrace ++ [deleteEmpty] }

/-- `IntermediateRoot(deleteEmpty)`: commits and returns the 32-byte root of
the state after this transaction; the root is supplied by the `rootFn`
oracle over the account map and the flag passed is recorded. -/
def StateDB.intermediateRoot (s : StateDB)
    (rootFn : List (Address × Account) → Bool → Hash) (deleteEmpty : Bool) :
    Hash × StateDB :=
  (rootFn s.accounts deleteEmpty, { s with rootTrace := s.rootTrace ++ [deleteEmpty] })

/-- A signed transaction (§3).  `types.Transaction` is not under src/;
`sender` models the signature: the result of recovery by the signer selected
for the chain configuration (spec §6, Signer contract), `none` meaning the
signature is malformed. -/
structure Transaction where
  nonce : Nat
  gasPrice : Nat
  gas : Nat
  toA : Option Address
  value : Nat
  data : List Nat
  hash : Hash
  sender : Option Address
  deriving DecidableEq, Repr

/-- The decoded transaction (§3).  `fromA` is Go's `msg.From()` (`from` is a
Lean keyword). -/
structure Message where
  fromA : Address
  toA : Option Address
  nonce : Nat
  value : Nat
  gas : Nat
  gasPrice : Nat
  data : List Nat
  checkNonce : Bool
  deriving DecidableEq, Repr

/-- Modelled from the spec: `tx.AsMessage(signer)` of go-ethereum is not
under src/.  Per §3 the message carries the transaction fields plus the
recovered sender, with `check_nonce` true for normal transactions; recovery
failure is the `invalid_signature` error. -/
def Transaction.asMessage (tx : Transaction) : Option Message :=
  tx.sender.map fun f =>
    { fromA := f, toA := tx.toA, nonce := tx.nonce, value := tx.value,
      gas := tx.gas, gasPrice := tx.gasPrice, data := tx.data, checkNonce := true }

/-- A block header (§3), restricted to the fields this subsystem reads. -/
structure Header where
  number : Nat
  time : Nat
  coinbase : Address
  difficulty : Nat
  gasLimit : Nat
  hash : Hash
  deriving DecidableEq, Repr

/-- The error kinds surfaced by the processor core (§7). -/
inductive ProcErr where
  | invalidSignature
  | nonceTooHigh
  | nonceTooLow
  | insufficientBalanceForGas
  | gasLimitReached
  | vmAbort
  deriving DecidableEq, Repr

/-- The fork-dependent gas table entries the patch builder reads
(`params.GasTable` is not under src/; fields per §3 RuleSet). -/
structure GasTable where
  extcodeCopy : Nat
  balance : Nat
  sLoad : Nat
  suicide : Nat
  createBySuicide : Nat
  calls : Nat
  expByte : Nat
  deriving DecidableEq, Repr

/-- The flat rule record returned by `config.Rules(number)` (§2, RuleSet
resolver), restricted to the flags `makeSputnikVMPatch` reads. -/
structure Rules where
  isEIP2F : Bool
  isEIP7F : Bool
  isEIP150 : Bool
  isEIP140F : Bool
  isEIP145F : Bool
  isEIP161F : Bool
  isEIP198F : Bool
  isEIP211F : Bool
  isEIP212F : Bool
  isEIP213F : Bool
  isEIP214F : Bool
  isEIP1014F : Bool
  isEIP1052F : Bool
  isEIP1283F : Bool
  deriving DecidableEq, Repr

/-- Chain configuration: per-height feature predicates plus the DAO fork
switch and the gas-table resolver (`params.ChainConfig` is not under src/;
the processor only ever calls the `IsEIPxxxF(num)` predicates, `Rules`,
`GasTable` and the two DAO fields). -/
structure ChainConfig where
  isEIP2F : Nat → Bool
  isEIP7F : Nat → Bool
  isEIP150 : Nat → Bool
  isEIP140F : Nat → Bool
  isEIP145F : Nat → Bool
  isEIP161F : Nat → Bool
  isEIP170F : Nat → Bool
  isEIP198F : Nat → Bool
  isEIP211F : Nat → Bool
  isEIP212F : Nat → Bool
  isEIP213F : Nat → Bool
  isEIP214F : Nat → Bool
  isEIP658F : Nat → Bool
  isEIP1014F : Nat → Bool
  isEIP1052F : Nat → Bool
  isEIP1283F : Nat → Bool
  daoForkSupport : Bool
  daoForkBlock : Option Nat
  gasTable : Nat → GasTable

/-- Modelled from the spec: `config.Rules(number)` (§2, "RuleSet resolver"
— a pure function from configuration and height to a flat record). -/
def ChainConfig.rules (c : ChainConfig) (n : Nat) : Rules :=
  { isEIP2F := c.isEIP2F n, isEIP7F := c.isEIP7F n, isEIP150 := c.isEIP150 n,
    isEIP140F := c.isEIP140F n, isEIP145F := c.isEIP145F n,
    isEIP161F := c.isEIP161F n, isEIP198F := c.isEIP198F n,
    isEIP211F := c.isEIP211F n, isEIP212F := c.isEIP212F n,
    isEIP213F := c.isEIP213F n, isEIP214F := c.isEIP214F n,
    isEIP1014F := c.isEIP1014F n, isEIP1052F := c.isEIP1052F n,
    isEIP1283F := c.isEIP1283F n }

/-- The interpreter selector read from `vm.Config` (§6, Selector). -/
structure VMConfig where
  evmInterpreter : String
  deriving DecidableEq, Repr

/-- A receipt (§3; `types.Receipt` is not under src/).  `postState` is the
byte string Go stores (nil ⇒ `[]`); fields `types.NewReceipt` does not set
default to zero values as in Go. -/
structure Receipt where
  postState : List Nat
  failed : Bool
  cumulativeGasUsed : Nat
  txHash : Hash
  contractAddress : Address
  logs : List Log
  bloom : Nat
  gasUsed : Nat
  blockHash : Hash
  blockNumber : Nat
  transactionIndex : Nat
  deriving DecidableEq, Repr

/-- Modelled from the spec: `types.NewReceipt(root, failed, cumulativeGas)`
sets the post-state root, the failure status and the cumulative gas; every
other field keeps its zero value. -/
def newReceipt (root : List Nat) (failed : Bool) (cumulativeGasUsed : Nat) : Receipt :=
  { postState := root, failed := failed, cumulativeGasUsed := cumulativeGasUsed,
    txHash := 0, contractAddress := 0, logs := [], bloom := 0, gasUsed := 0,
    blockHash := 0, blockNumber := 0, transactionIndex := 0 }

/-- What the SputnikVM core suspends on: the four data requirements the Go
loop answers (`sputnikvm.RequireNone` is represented by the requirement
stream being exhausted). -/
inductive Requirement where
  | account (addr : Address)
  | accountCode (addr : Address)
  | accountStorage (addr : Address) (key : Nat)
  | blockhash (n : Nat)
  deriving DecidableEq, Repr

/-- A reply committed into the VM by the host (spec §6, External VM
contract: `commit_account`, `commit_account_code`, `commit_account_storage`,
`commit_nonexist`, `commit_blockhash`). -/
inductive Commit where
  | account (addr : Address) (nonce : Nat) (balance : Int) (code : List Nat)
  | accountCode (addr : Address) (code : List Nat)
  | accountStorage (addr : Address) (key : Nat) (value : Nat)
  | nonexist (addr : Address)
  | blockhash (n : Nat) (h : Hash)
  deriving DecidableEq, Repr

/-- The five post-execution account-change variants drained from the VM. -/
inductive AccountChange where
  | increaseBalance (addr : Address) (amount : Int)
  | decreaseBalance (addr : Address) (amount : Int)
  | removed (addr : Address)
  | full (addr : Address) (nonce : Nat) (balance : Int) (code : List Nat)
      (changedStorage : List (Hash × Hash))
  | create (addr : Address) (nonce : Nat) (balance : Int) (code : List Nat)
      (storage : List (Hash × Hash))
  deriving DecidableEq, Repr

/-- A VM-emitted log before conversion to the host `Log` type. -/
structure SVMLog where
  address : Address
  topics : List Hash
  data : List Nat
  deriving DecidableEq, Repr

/-- Modelled from the spec: the SputnikVM FFI core (§6, External VM
contract) is an external deterministic machine.  `pending` is its stream of
data requirements (`Fire` yields them in order, then `RequireNone`);
`commits` records the host's replies; `accountChanges`, `vmLogs`,
`usedGas` and `failed` are the outputs read after the loop. -/
structure SputnikVM where
  pending : List Requirement
  commits : List Commit
  accountChanges : List AccountChange
  vmLogs : List SVMLog
  usedGas : Nat
  failed : Bool
  deriving DecidableEq, Repr

def SputnikVM.commitAccount (vm : SputnikVM) (a : Address) (n : Nat) (b : Int)
    (c : List Nat) : SputnikVM :=
  { vm with commits := vm.commits ++ [.account a n b c] }

def SputnikVM.commitAccountCode (vm : SputnikVM) (a : Address) (c : List Nat) : SputnikVM :=
  { vm with commits := vm.commits ++ [.accountCode a c] }

def SputnikVM.commitAccountStorage (vm : SputnikVM) (a : Address) (k v : Nat) : SputnikVM :=
  { vm with commits := vm.commits ++ [.accountStorage a k v] }

def SputnikVM.commitNonexist (vm : SputnikVM) (a : Address) : SputnikVM :=
  { vm with commits := vm.commits ++ [.nonexist a] }

def SputnikVM.commitBlockhash (vm : SputnikVM) (n : Nat) (h : Hash) : SputnikVM :=
  { vm with commits := vm.commits ++ [.blockhash n h] }

/-- The transaction parameters handed to the external VM
(`sputnikvm.Transaction` built at `applySputnikTransaction`). -/
structure SVMTransaction where
  caller : Address
  gasPrice : Nat
  gasLimit : Nat
  address : Option Address
  value : Nat
  input : List Nat
  nonce : Nat
  deriving DecidableEq, Repr

/-- The header parameters handed to the external VM
(`sputnikvm.HeaderParams` built at `applySputnikTransaction`). -/
structure SVMHeaderParams where
  beneficiary : Address
  timestamp : Nat
  number : Nat
  difficulty : Nat
  gasLimit : Nat
  deriving DecidableEq, Repr

/-- The parameter bundle built by `makeSputnikVMPatch`
(`sputnikvm.DynamicPatchBuilder`). -/
structure DynamicPatchBuilder where
  codeDepositLimit : Nat
  callStackLimit : Nat
  gasExtcode : Nat
  gasBalance : Nat
  gasSload : Nat
  gasSuicide : Nat
  gasSuicideNewAccount : Nat
  gasCall : Nat
  gasExpbyte : Nat
  gasTransactionCreate : Nat
  forceCodeDeposit : Bool
  hasDelegateCall : Bool
  hasStaticCall : Bool
  hasRevert : Bool
  hasReturnData : Bool
  hasBitwiseShift : Bool
  hasCreate2 : Bool
  hasExtCodeHash : Bool
  hasReducedSstoreGasMetering : Bool
  errOnCallWithMoreGas : Bool
  callCreateL64AfterGas : Bool
  memoryLimit : Nat
  enabledContracts : List Address
  deriving DecidableEq, Repr

/-- The account-model bundle built by `makeSputnikVMPatch`
(`sputnikvm.DynamicAccountPatch`). -/
structure DynamicAccountPatch where
  initialNonce : Nat
  initialCreateNonce : Nat
  emptyConsideredExists : Bool
  allowPartialChange : Bool
  deriving DecidableEq, Repr

/-- `sputnikvm.NewDynamicPatch` pairs the two bundles; the paired value is
what `NewDynamic` receives. -/
abbrev DynamicPatch := DynamicPatchBuilder × DynamicAccountPatch

/-- The outcome the in-process interpreter reports for one message
(spec §4.2 step 3): the mutated state, the gas consumed, the `failed`
(reverted) flag, and an optional abort error. -/
structure ExecOut where
  state : StateDB
  gas : Nat
  failed : Bool
  err : Option ProcErr

/-- The external collaborators of the processor, gathered as oracles:
`createAddress` is `crypto.CreateAddress` (keccak256-and-RLP based),
`bloomFn` is `types.CreateBloom` over a receipt's logs, `rootFn` the trie
root behind `IntermediateRoot`, `getHashFn` the `GetHashFn(header, bc)`
blockhash closure, `execMsg` the interpreter behind `ApplyMessage`,
`newVM` is `sputnikvm.NewDynamic`, `daoFork` is `misc.ApplyDAOHardFork`,
and `engineFinalize` the consensus engine's `Finalize`.  None of these is
under src/; the processor treats each as an opaque call (spec §6). -/
structure Ext where
  createAddress : Address → Nat → Address
  bloomFn : List Log → Nat
  rootFn : List (Address × Account) → Bool → Hash
  getHashFn : Nat → Hash
  execMsg : Message → StateDB → ExecOut
  newVM : DynamicPatch → SVMTransaction → SVMHeaderParams → SputnikVM
  daoFork : StateDB → StateDB
  engineFinalize : StateDB → StateDB

/-- The result shape of one transaction application: Go's
`(*types.Receipt, uint64, error)` return values plus the three mutable
arguments (`*usedGas`, `*GasPool`, `*state.StateDB`) threaded through. -/
structure ApplyResult where
  receipt : Option Receipt
  gas : Nat
  err : Option ProcErr
  usedGas : Nat
  gp : Nat
  statedb : StateDB
  deriving Repr

/-- The result of `ApplyMessage`: state, gas used, failed flag, remaining
pool, optional error. -/
structure MsgResult where
  statedb : StateDB
  gasUsed : Nat
  failed : Bool
  gp : Nat
  err : Option ProcErr

/-- Modelled from the spec: `ApplyMessage` (`core/state_transition.go`) and
the gas pool (`core/gas_pool.go`) are not under src/.  Per §2 "Gas meter"
and §4.2 step 3: the pool must admit the message's full gas limit (else
`gas_limit_reached`); the interpreter oracle then runs the message and
reports gas used, the revert flag and an optional abort; the unused part of
the purchased gas is refunded to the pool. -/
def ApplyMessage (ext : Ext) (msg : Message) (gp : Nat) (s : StateDB) : MsgResult :=
  if gp < msg.gas then
    { statedb := s, gasUsed := 0, failed := false, gp := gp, err := some .gasLimitReached }
  else
    let r := ext.execMsg msg s
    match r.err with
    | some e => { statedb := r.state, gasUsed := 0, failed := false,
                  gp := gp - msg.gas, err := some e }
    | none => { statedb := r.state, gasUsed := r.gas, failed := r.failed,
                gp := gp - msg.gas + (msg.gas - r.gas), err := none }

/-- `applyTransaction` — the standard transaction application function,
using the built-in Go EVM (src/unnamed/part_000 lines 98–139).
`NewEVMContext` sets `Origin = msg.From()` (spec §4.2 step 2), so the
creation address is derived from the message sender. -/
def applyTransaction (ext : Ext) (config : ChainConfig) (header : Header)
    (tx : Transaction) (usedGas : Nat) (gp : Nat) (s : StateDB) : ApplyResult :=
  match tx.asMessage with
  | none =>
    { receipt := none, gas := 0, err := some .invalidSignature,
      usedGas := usedGas, gp := gp, statedb := s }
  | some msg =>
    let mr := ApplyMessage ext msg gp s
    match mr.err with
    | some e =>
      { receipt := none, gas := 0, err := some e,
        usedGas := usedGas, gp := mr.gp, statedb := mr.statedb }
    | none =>
      let rs :=
        if config.isEIP658F header.number then
          (([] : List Nat), mr.statedb.finalise (config.isEIP161F header.number))
        else
          let p := mr.statedb.intermediateRoot ext.rootFn (config.isEIP161F header.number)
          (hashBytes p.1, p.2)
      let root := rs.1
      let s2 := rs.2
      let usedGas2 := usedGas + mr.gasUsed
      let receipt0 := newReceipt root mr.failed usedGas2
      let receipt1 := { receipt0 with txHash := tx.hash, gasUsed := mr.gasUsed }
      let receipt2 :=
        if msg.toA = none then
          { receipt1 with contractAddress := ext.createAddress msg.fromA tx.nonce }
        else receipt1
      let receipt3 := { receipt2 with logs := s2.getLogs tx.hash }
      let receipt4 := { receipt3 with bloom := ext.bloomFn receipt3.logs }
      let receipt :=
        { receipt4 with
            blockHash := s2.bhash
            blockNumber := header.number
            transactionIndex := s2.txIndex }
      { receipt := some receipt, gas := mr.gasUsed, err := none,
        usedGas := usedGas2, gp := mr.gp, statedb := s2 }

/-- `precheckSputnikVMTransaction` (src/unnamed/part_000 lines 141–171):
the validity checks run before handing a transaction to the external VM,
in source order — signature, nonce (too high, then too low), balance
against `msg.gas * tx.gasPrice`, then block gas limit. -/
def precheckSputnikVMTransaction (_config : ChainConfig) (header : Header)
    (tx : Transaction) (usedGas : Nat) (s : StateDB) : Option ProcErr :=
  match tx.asMessage with
  | none => some .invalidSignature
  | some msg =>
    if msg.checkNonce ∧ s.getNonce msg.fromA < msg.nonce then some .nonceTooHigh
    else if msg.checkNonce ∧ s.getNonce msg.fromA > msg.nonce then some .nonceTooLow
    else if s.getBalance msg.fromA < (msg.gas * tx.gasPrice : Nat) then
      some .insufficientBalanceForGas
    else if usedGas + msg.gas > header.gasLimit then some .gasLimitReached
    else none

/-- Protocol constants read by the patch builder.  Modelled from the spec
(§4.4): `params.MaxCodeSize`, `params.CallCreateDepth` and
`params.CreateGas` are not under src/. -/
def maxCodeSize : Nat := 24576

/-- Fixed call stack depth (spec §4.4: 1024). -/
def callCreateDepth : Nat := 1024

/-- Upfront CREATE cost once EIP-2 is active (spec §4.4: 32000). -/
def createGas : Nat := 32000

/-- `^uint(0)`: the maximal unsigned integer, used as the memory limit. -/
def maxUint : Nat := 2 ^ 64 - 1

/-- `makeSputnikVMPatch` (src/unnamed/part_000 lines 361–449): derive the
external VM's parameter bundle from the rule set at `header.number`. -/
def makeSputnikVMPatch (config : ChainConfig) (header : Header) : DynamicPatch :=
  let gasTable := config.gasTable header.number
  -- Zero == unlimited
  let codeDepositLimit := if config.isEIP170F header.number then maxCodeSize else 0
  let rules := config.rules header.number
  -- The upfront CREATE cost (it is lower on Frontier)
  let createGasCost := if rules.isEIP2F then createGas else 0
  -- Build list of enabled precompiles
  let e0 : List Address := [1, 2, 3, 4]
  let e1 := if rules.isEIP198F then e0 ++ [5] else e0
  let e2 := if rules.isEIP213F then (e1 ++ [6]) ++ [7] else e1
  let e3 := if rules.isEIP212F then e2 ++ [8] else e2
  let patchBuilder : DynamicPatchBuilder :=
    { codeDepositLimit := codeDepositLimit
      callStackLimit := callCreateDepth
      gasExtcode := gasTable.extcodeCopy
      gasBalance := gasTable.balance
      gasSload := gasTable.sLoad
      gasSuicide := gasTable.suicide
      gasSuicideNewAccount := gasTable.createBySuicide
      gasCall := gasTable.calls
      gasExpbyte := gasTable.expByte
      gasTransactionCreate := createGasCost
      forceCodeDeposit := !rules.isEIP2F
      hasDelegateCall := rules.isEIP7F
      hasStaticCall := rules.isEIP214F
      hasRevert := rules.isEIP140F
      hasReturnData := rules.isEIP211F
      hasBitwiseShift := rules.isEIP145F
      hasCreate2 := rules.isEIP1014F
      hasExtCodeHash := rules.isEIP1052F
      hasReducedSstoreGasMetering := rules.isEIP1283F
      errOnCallWithMoreGas := !rules.isEIP150
      callCreateL64AfterGas := rules.isEIP150
      memoryLimit := maxUint
      enabledContracts := e3 }
  let initialNonce : Nat := 0
  let initialCreateNonce : Nat := if rules.isEIP161F then 1 else 0
  let accountPatch : DynamicAccountPatch :=
    { initialNonce := initialNonce
      initialCreateNonce := initialCreateNonce
      emptyConsideredExists := !rules.isEIP161F
      allowPartialChange := true }
  (patchBuilder, accountPatch)

/-- The request-satisfaction loop of `applySputnikTransaction`
(src/unnamed/part_000 lines 233–272): repeatedly `Fire` the VM; answer each
requirement from the state database (existence-checked) or the blockhash
closure; exit on `RequireNone` (stream exhausted). -/
def fireLoop (ext : Ext) (s : StateDB) : List Requirement → SputnikVM → SputnikVM
  | [], vm => vm
  | req :: rest, vm =>
    let vm2 :=
      match req with
      | .account addr =>
        if s.exist addr then
          vm.commitAccount addr (s.getNonce addr) (s.getBalance addr) (s.getCode addr)
        else vm.commitNonexist addr
      | .accountCode addr =>
        if s.exist addr then vm.commitAccountCode addr (s.getCode addr)
        else vm.commitNonexist addr
      | .accountStorage addr key =>
        if s.exist addr then vm.commitAccountStorage addr key (s.getState addr key)
        else vm.commitNonexist addr
      | .blockhash n => vm.commitBlockhash n (ext.getHashFn n)
    fireLoop ext s rest vm2

/-- One account-change record applied to the state database
(src/unnamed/part_000 lines 275–314). -/
def applyAccountChange (s : StateDB) : AccountChange → StateDB
  | .increaseBalance addr amount => s.addBalance addr amount
  | .decreaseBalance addr amount => s.setBalance addr (s.getBalance addr - amount)
  | .removed addr => s.suicide addr
  | .full addr nonce balance code changedStorage =>
    let s1 := ((s.setBalance addr balance).setNonce addr nonce).setCode addr code
    changedStorage.foldl (fun t kv => t.setState addr kv.1 kv.2) s1
  | .create addr nonce balance code storage =>
    let s1 := ((s.setBalance addr balance).setNonce addr nonce).setCode addr code
    storage.foldl (fun t kv => t.setState addr kv.1 kv.2) s1

/-- Drain the VM's account-change list in order. -/
def applyAccountChanges (s : StateDB) (l : List AccountChange) : StateDB :=
  l.foldl applyAccountChange s

/-- Convert each VM log to the host log type and append it
(src/unnamed/part_000 lines 315–327); `block_number` is the current header
number. -/
def addSputnikLogs (s : StateDB) (currentNumber : Nat) (ls : List SVMLog) : StateDB :=
  ls.foldl
    (fun t l =>
      t.addLog { address := l.address, topics := l.topics, data := l.data,
                 blockNumber := currentNumber })
    s

/-- The `sputnikvm.Transaction` value built from the message and the
transaction (src/unnamed/part_000 lines 210–218). -/
def sputnikVMtx (tx : Transaction) (msg : Message) : SVMTransaction :=
  { caller := msg.fromA, gasPrice := tx.gasPrice, gasLimit := tx.gas,
    address := tx.toA, value := tx.value, input := tx.data, nonce := tx.nonce }

/-- The `sputnikvm.HeaderParams` value built from the header
(src/unnamed/part_000 lines 219–225). -/
def sputnikVMheader (header : Header) : SVMHeaderParams :=
  { beneficiary := header.coinbase, timestamp := header.time,
    number := header.number, difficulty := header.difficulty,
    gasLimit := header.gasLimit }

/-- Construct the VM (`sputnikvm.NewDynamic`) and run the
request-satisfaction loop against the pre-state. -/
def sputnikRunVM (ext : Ext) (config : ChainConfig) (header : Header)
    (tx : Transaction) (msg : Message) (s : StateDB) : SputnikVM :=
  let patch := makeSputnikVMPatch config header
  let vm0 := ext.newVM patch (sputnikVMtx tx msg) (sputnikVMheader header)
  fireLoop ext s vm0.pending { vm0 with pending := [] }

/-- The state database after the VM's change set and logs are written back
(src/unnamed/part_000 lines 274–327). -/
def sputnikPostState (ext : Ext) (config : ChainConfig) (header : Header)
    (tx : Transaction) (msg : Message) (s : StateDB) : StateDB :=
  addSputnikLogs (applyAccountChanges s (sputnikRunVM ext config header tx msg s).accountChanges)
    header.number (sputnikRunVM ext config header tx msg s).vmLogs

/-- `applySputnikTransaction` (src/unnamed/part_000 lines 173–359): the
external-VM adapter.  Note that, unlike the native applier, it neither
reads nor writes the gas pool, it passes `true` to `Finalise`
unconditionally, and it leaves the receipt's `blockHash`, `blockNumber`
and `transactionIndex` fields at their zero values. -/
def applySputnikTransaction (ext : Ext) (config : ChainConfig) (header : Header)
    (tx : Transaction) (usedGas : Nat) (gp : Nat) (s : StateDB) : ApplyResult :=
  match precheckSputnikVMTransaction config header tx usedGas s with
  | some e =>
    { receipt := none, gas := 0, err := some e,
      usedGas := usedGas, gp := gp, statedb := s }
  | none =>
    match tx.asMessage with
    | none =>
      { receipt := none, gas := 0, err := some .invalidSignature,
        usedGas := usedGas, gp := gp, statedb := s }
    | some msg =>
      let vm := sputnikRunVM ext config header tx msg s
      let s2 := sputnikPostState ext config header tx msg s
      let rs :=
        if config.isEIP658F header.number then
          (([] : List Nat), s2.finalise true)
        else
          let p := s2.intermediateRoot ext.rootFn (config.isEIP161F header.number)
          (hashBytes p.1, p.2)
      let root := rs.1
      let s3 := rs.2
      let gas := vm.usedGas
      let usedGas2 := usedGas + gas
      let receipt0 := newReceipt root vm.failed usedGas2
      let receipt1 := { receipt0 with txHash := tx.hash, gasUsed := gas }
      let receipt2 :=
        if msg.toA = none then
          { receipt1 with contractAddress := ext.createAddress msg.fromA tx.nonce }
        else receipt1
      let receipt3 := { receipt2 with logs := s3.getLogs tx.hash }
      let receipt := { receipt3 with bloom := ext.bloomFn receipt3.logs }
      { receipt := some receipt, gas := gas, err := none,
        usedGas := usedGas2, gp := gp, statedb := s3 }

/-- `ApplyTransaction` (src/unnamed/part_000 lines 90–95): dispatch on the
configured interpreter. -/
def ApplyTransaction (ext : Ext) (config : ChainConfig) (cfg : VMConfig)
    (header : Header) (tx : Transaction) (usedGas : Nat) (gp : Nat)
    (s : StateDB) : ApplyResult :=
  if cfg.evmInterpreter = "svm" then
    applySputnikTransaction ext config header tx usedGas gp s
  else
    applyTransaction ext config header tx usedGas gp s

/-- A block: header plus ordered transactions (`types.Block` restricted to
what `Process` reads; `block.Hash()`, `block.Number()` and
`block.GasLimit()` are the header's hash, number and gas limit). -/
structure Block where
  header : Header
  transactions : List Transaction

/-- The outcome of the per-transaction loop inside `Process`. -/
structure LoopOut where
  receipts : List Receipt
  allLogs : List Log
  usedGas : Nat
  gp : Nat
  statedb : StateDB
  err : Option ProcErr

/-- The per-transaction loop of `Process` (src/unnamed/part_000 lines
71–79): prepare the state scope, apply, abort on error, else append the
receipt and its logs. -/
def processLoop (ext : Ext) (config : ChainConfig) (cfg : VMConfig)
    (header : Header) (bhash : Hash) :
    List Transaction → Nat → Nat → Nat → StateDB → List Receipt → List Log → LoopOut
  | [], _, usedGas, gp, s, receipts, allLogs =>
    { receipts := receipts, allLogs := allLogs, usedGas := usedGas,
      gp := gp, statedb := s, err := none }
  | tx :: rest, i, usedGas, gp, s, receipts, allLogs =>
    let s0 := s.prepare tx.hash bhash i
    let r := ApplyTransaction ext config cfg header tx usedGas gp s0
    match r.err with
    | some e =>
      { receipts := receipts, allLogs := allLogs, usedGas := usedGas,
        gp := gp, statedb := r.statedb, err := some e }
    | none =>
      processLoop ext config cfg header bhash rest (i + 1) r.usedGas r.gp r.statedb
        (receipts ++ r.receipt.toList)
        (allLogs ++ ((r.receipt.map Receipt.logs).getD []))

/-- The overall result of `Process`: Go's
`(types.Receipts, []*types.Log, uint64, error)` plus the final state. -/
structure ProcessResult where
  receipts : List Receipt
  logs : List Log
  usedGas : Nat
  err : Option ProcErr
  statedb : StateDB

/-- `StateProcessor.Process` (src/unnamed/part_000 lines 58–84): DAO hook,
gas pool initialised to the block gas limit, per-transaction loop (abort on
the first error with nil receipts, nil logs and zero gas), then the
consensus engine's `Finalize`. -/
def Process (ext : Ext) (config : ChainConfig) (block : Block) (s : StateDB)
    (cfg : VMConfig) : ProcessResult :=
  let header := block.header
  let gp := header.gasLimit
  let s0 :=
    if config.daoForkSupport ∧ config.daoForkBlock = some header.number then
      ext.daoFork s
    else s
  let out := processLoop ext config cfg header header.hash block.transactions 0 0 gp s0 [] []
  match out.err with
  | some e =>
    { receipts := [], logs := [], usedGas := 0, err := some e, statedb := out.statedb }
  | none =>
    { receipts := out.receipts, logs := out.allLogs, usedGas := out.usedGas,
      err := none, statedb := ext.engineFinalize out.statedb }

/-- The reply the spec prescribes for one VM requirement (§4.3, "Execution
loop" table).  This definition follows the spec's words; the theorem for
the request loop compares the source-derived `fireLoop` against it. -/
def answerReq (ext : Ext) (s : StateDB) : Requirement → Commit
  | .account addr =>
    if s.exist addr then .account addr (s.getNonce addr) (s.getBalance addr) (s.getCode addr)
    else .nonexist addr
  | .accountCode addr =>
    if s.exist addr then .accountCode addr (s.getCode addr) else .nonexist addr
  | .accountStorage addr key =>
    if s.exist addr then .accountStorage addr key (s.getState addr key) else .nonexist addr
  | .blockhash n => .blockhash n (ext.getHashFn n)

/-- Sum of the per-transaction `gasUsed` fields of a receipt list. -/
def sumGas (rs : List Receipt) : Nat := (rs.map Receipt.gasUsed).sum

/-- `cumFrom t rs`: starting from a running total `t`, every receipt's
`cumulativeGasUsed` is the running sum of the per-transaction gas, in
order. -/
def cumFrom : Nat → List Receipt → Prop
  | _, [] => True
  | t, rc :: rest => rc.cumulativeGasUsed = t + rc.gasUsed ∧ cumFrom (t + rc.gasUsed) rest

/-- Contract on the interpreter oracle (spec §3, Invariants:
`gas_used ≤ gas_limit`): the gas the interpreter reports for a message
never exceeds the message's gas limit. -/
def ExecGasBounded (ext : Ext) : Prop :=
  ∀ msg s, (ext.execMsg msg s).gas ≤ msg.gas

/-- Contract on the external VM oracle (spec §3, Invariants): the gas the
VM reports never exceeds the transaction's gas limit. -/
def VMGasBounded (ext : Ext) : Prop :=
  ∀ p t h, (ext.newVM p t h).usedGas ≤ t.gasLimit

/-- Contract on the interpreter oracle: the interpreter mutates world state
and logs but never calls `Finalise` or `IntermediateRoot` itself (spec §4.2:
the state-root policy is the applier's step 4, after the interpreter ran). -/
def ExecPreservesTraces (ext : Ext) : Prop :=
  ∀ msg s, (ext.execMsg msg s).state.finaliseTrace = s.finaliseTrace
    ∧ (ext.execMsg msg s).state.rootTrace = s.rootTrace

/-- The message recovered from `tx` when the signer yields sender `f`. -/
def msgOf (tx : Transaction) (f : Address) : Message :=
  { fromA := f, toA := tx.toA, nonce := tx.nonce, value := tx.value,
    gas := tx.gas, gasPrice := tx.gasPrice, data := tx.data, checkNonce := true }

/-- An all-zero gas table for concrete evaluations. -/
def gasTableT : GasTable :=
  { extcodeCopy := 0, balance := 0, sLoad := 0, suicide := 0,
    createBySuicide := 0, calls := 0, expByte := 0 }

/-- A chain configuration with every fork inactive. -/
def cfgFrontier : ChainConfig :=
  { isEIP2F := fun _ => false, isEIP7F := fun _ => false,
    isEIP150 := fun _ => false, isEIP140F := fun _ => false,
    isEIP145F := fun _ => false, isEIP161F := fun _ => false,
    isEIP170F := fun _ => false, isEIP198F := fun _ => false,
    isEIP211F := fun _ => false, isEIP212F := fun _ => false,
    isEIP213F := fun _ => false, isEIP214F := fun _ => false,
    isEIP658F := fun _ => false, isEIP1014F := fun _ => false,
    isEIP1052F := fun _ => false, isEIP1283F := fun _ => false,
    daoForkSupport := false, daoForkBlock := none,
    gasTable := fun _ => gasTableT }

/-- A chain configuration where only the receipt-status rule (EIP-658) is
active. -/
def cfg658 : ChainConfig := { cfgFrontier with isEIP658F := fun _ => true }

/-- A concrete oracle bundle: the interpreter consumes the message's whole
gas limit without failing or touching state; the VM does the same with no
requirements, changes or logs. -/
def extT : Ext :=
  { createAddress := fun a n => a * 1000 + n
    bloomFn := fun l => l.length
    rootFn := fun accs b => accs.length + (if b then 1 else 0)
    getHashFn := fun n => n + 100
    execMsg := fun msg s => { state := s, gas := msg.gas, failed := false, err := none }
    newVM := fun _ t _ =>
      { pending := [], commits := [], accountChanges := [], vmLogs := [],
        usedGas := t.gasLimit, failed := false }
    daoFork := id
    engineFinalize := id }

/-- A concrete header at height 5. -/
def headerT : Header :=
  { number := 5, time := 0, coinbase := 1, difficulty := 0,
    gasLimit := 100000, hash := 99 }

/-- An empty concrete state database. -/
def sT : StateDB :=
  { accounts := [], logs := [], thash := 77, bhash := 99, txIndex := 0,
    finaliseTrace := [], rootTrace := [] }

/-- A concrete simple transfer from sender 3 to recipient 9. -/
def txT : Transaction :=
  { nonce := 0, gasPrice := 0, gas := 21000, toA := some 9, value := 10,
    data := [], hash := 77, sender := some 3 }

/-- A concrete contract creation by sender 3. -/
def txC : Transaction :=
  { nonce := 0, gasPrice := 0, gas := 53000, toA := none, value := 0,
    data := [1], hash := 78, sender := some 3 }

/-- A transaction with a malformed signature (sender recovery fails). -/
def txBad : Transaction := { txT with sender := none }

/-- Selector values: the external adapter and the native interpreter. -/
def vmcSvm : VMConfig := { evmInterpreter := "svm" }

/-- Any other selector value picks the native applier. -/
def vmcNative : VMConfig := { evmInterpreter := "" }

/-- A concrete one-transaction block. -/
def blockT : Block := { header := headerT, transactions := [txT] }

/-- A concrete block whose only transaction has a malformed signature. -/
def blockBad : Block := { header := headerT, transactions := [txBad] }

/-- A concrete two-transaction block (transfer then creation). -/
def blockT2 : Block := { header := headerT, transactions := [txT, txC] }

theorem hashBytes_length (h : Hash) : (hashBytes h).length = 32 := by
  simp [hashBytes]

theorem asMessage_eq (tx : Transaction) (f : Address) (hf : tx.sender = some f) :
    tx.asMessage = some (msgOf tx f) := by
  simp [Transaction.asMessage, hf, msgOf]

theorem fireLoop_commits (ext : Ext) (s : StateDB) :
    ∀ (reqs : List Requirement) (vm : SputnikVM),
      fireLoop ext s reqs vm
        = { vm with commits := vm.commits ++ reqs.map (answerReq ext s) } := by
  intro reqs
  induction reqs with
  | nil => intro vm; simp [fireLoop]
  | cons req rest ih =>
    intro vm
    cases req with
    | account addr =>
      cases hx : s.exist addr <;>
        simp [fireLoop, hx, SputnikVM.commitAccount, SputnikVM.commitNonexist, ih, answerReq]
    | accountCode addr =>
      cases hx : s.exist addr <;>
        simp [fireLoop, hx, SputnikVM.commitAccountCode, SputnikVM.commitNonexist, ih, answerReq]
    | accountStorage addr key =>
      cases hx : s.exist addr <;>
        simp [fireLoop, hx, SputnikVM.commitAccountStorage, SputnikVM.commitNonexist, ih,
          answerReq]
    | blockhash n =>
      simp [fireLoop, SputnikVM.commitBlockhash, ih, answerReq]

theorem fireLoop_usedGas (ext : Ext) (s : StateDB) (reqs : List Requirement)
    (vm : SputnikVM) : (fireLoop ext s reqs vm).usedGas = vm.usedGas := by
  rw [fireLoop_commits]

theorem fireLoop_failed (ext : Ext) (s : StateDB) (reqs : List Requirement)
    (vm : SputnikVM) : (fireLoop ext s reqs vm).failed = vm.failed := by
  rw [fireLoop_commits]

theorem fireLoop_accountChanges (ext : Ext) (s : StateDB) (reqs : List Requirement)
    (vm : SputnikVM) : (fireLoop ext s reqs vm).accountChanges = vm.accountChanges := by
  rw [fireLoop_commits]

/-- C8: the patch built by `makeSputnikVMPatch` enables exactly the
precompiled contracts at addresses 1–4 unconditionally, adds 5 iff EIP-198
is active at `header.number`, 6 and 7 iff EIP-213, and 8 iff EIP-212; its
account patch has `initialNonce = 0`, `initialCreateNonce = 1` iff EIP-161
is active else 0, `emptyConsideredExists` the negation of EIP-161
activation, and `allowPartialChange = true`. -/
theorem makeSputnikVMPatch_spec (config : ChainConfig) (header : Header) :
    (∀ a : Address,
      a ∈ (makeSputnikVMPatch config header).1.enabledContracts ↔
        (a = 1 ∨ a = 2 ∨ a = 3 ∨ a = 4
          ∨ (a = 5 ∧ (config.rules header.number).isEIP198F = true)
          ∨ ((a = 6 ∨ a = 7) ∧ (config.rules header.number).isEIP213F = true)
          ∨ (a = 8 ∧ (config.rules header.number).isEIP212F = true)))
    ∧ (makeSputnikVMPatch config header).2.initialNonce = 0
    ∧ (makeSputnikVMPatch config header).2.initialCreateNonce
        = (if (config.rules header.number).isEIP161F then 1 else 0)
    ∧ (makeSputnikVMPatch config header).2.emptyConsideredExists
        = !(config.rules header.number).isEIP161F
    ∧ (makeSputnikVMPatch config header).2.allowPartialChange = true := by
  refine ⟨?_, ?_, ?_, ?_, ?_⟩
  · intro a
    cases h198 : (config.rules header.number).isEIP198F <;>
    cases h213 : (config.rules header.number).isEIP213F <;>
    cases h212 : (config.rules header.number).isEIP212F <;>
      simp [makeSputnikVMPatch, h198, h213, h212] <;> tauto
  · simp [makeSputnikVMPatch]
  · cases h161 : (config.rules header.number).isEIP161F <;>
      simp [makeSputnikVMPatch, h161]
  · cases h161 : (config.rules header.number).isEIP161F <;>
      simp [makeSputnikVMPatch, h161]
  · simp [makeSputnikVMPatch]

/-- Closed instance of the patch theorem at a concrete configuration with
every fork inactive: address 5 is not enabled, address 1 is, and the
account patch is the pre-EIP-161 one. -/
theorem makeSputnikVMPatch_spec_witness :
    ¬(5 ∈ (makeSputnikVMPatch cfgFrontier headerT).1.enabledContracts)
    ∧ 1 ∈ (makeSputnikVMPatch cfgFrontier headerT).1.enabledContracts
    ∧ (makeSputnikVMPatch cfgFrontier headerT).2.initialCreateNonce = 0 := by
  refine ⟨?_, ?_, ?_⟩
  · intro hm
    have h := ((makeSputnikVMPatch_spec cfgFrontier headerT).1 5).mp hm
    revert h; decide
  · exact ((makeSputnikVMPatch_spec cfgFrontier headerT).1 1).mpr (by decide)
  · have h := (makeSputnikVMPatch_spec cfgFrontier headerT).2.2.1
    simpa using h

/-- C9: in the request-satisfaction loop, every `account`, `account_code`
and `account_storage` requirement is answered from the state database when
the account exists and with a nonexistent-commit otherwise, every
`blockhash` requirement is answered via the blockhash closure, and the
loop exits exactly when the requirement stream is exhausted
(`RequireNone`), leaving the replies in order. -/
theorem fireLoop_answers_spec (ext : Ext) (s : StateDB) (reqs : List Requirement)
    (vm : SputnikVM) :
    fireLoop ext s reqs vm
      = { vm with commits := vm.commits ++ reqs.map (answerReq ext s) } :=
  fireLoop_commits ext s reqs vm

/-- Closed instance of the loop theorem: a concrete two-requirement stream
against a concrete state produces exactly the two prescribed replies. -/
theorem fireLoop_answers_spec_witness :
    fireLoop extT sT [Requirement.account 3, Requirement.blockhash 2]
        { pending := [], commits := [], accountChanges := [], vmLogs := [],
          usedGas := 0, failed := false }
      = { pending := [], commits := [Commit.nonexist 3, Commit.blockhash 2 102],
          accountChanges := [], vmLogs := [], usedGas := 0, failed := false } := by
  rw [fireLoop_answers_spec]
  decide

/-- C10: `applySputnikTransaction` neither reads nor modifies the gas pool
on any path — the pool after the call equals the pool before, and the whole
result is independent of the pool value — and block-level gas admission on
this path is enforced solely by comparing `usedGas + tx.gas` against
`header.gasLimit` (once the nonce and balance pre-checks pass, the call
errs with `gas_limit_reached` exactly when that comparison fails). -/
theorem applySputnikTransaction_gp_frame (ext : Ext) (config : ChainConfig)
    (header : Header) (tx : Transaction) (usedGas gp gp2 : Nat) (s : StateDB) :
    ((applySputnikTransaction ext config header tx usedGas gp s).gp = gp)
    ∧ (applySputnikTransaction ext config header tx usedGas gp2 s
        = { applySputnikTransaction ext config header tx usedGas gp s with gp := gp2 })
    ∧ (∀ f, tx.sender = some f → s.getNonce f = tx.nonce →
        ¬(s.getBalance f < (tx.gas * tx.gasPrice : Nat)) →
        ((applySputnikTransaction ext config header tx usedGas gp s).err
            = some .gasLimitReached ↔ usedGas + tx.gas > header.gasLimit)) := by
  refine ⟨?_, ?_, ?_⟩
  · cases hp : precheckSputnikVMTransaction config header tx usedGas s with
    | some e => simp [applySputnikTransaction, hp]
    | none =>
      cases hm : tx.asMessage with
      | none => simp [applySputnikTransaction, hp, hm]
      | some msg => simp [applySputnikTransaction, hp, hm]
  · cases hp : precheckSputnikVMTransaction config header tx usedGas s with
    | some e => simp [applySputnikTransaction, hp]
    | none =>
      cases hm : tx.asMessage with
      | none => simp [applySputnikTransaction, hp, hm]
      | some msg => simp [applySputnikTransaction, hp, hm]
  · intro f hf hn hb
    have hm := asMessage_eq tx f hf
    by_cases hg : usedGas + tx.gas > header.gasLimit
    · have hp : precheckSputnikVMTransaction config header tx usedGas s
          = some .gasLimitReached := by
        simp [precheckSputnikVMTransaction, hm, msgOf, hn, hg]
        exact_mod_cast not_lt.mp hb
      simp [applySputnikTransaction, hp, hg]
    · have hp : precheckSputnikVMTransaction config header tx usedGas s = none := by
        simp [precheckSputnikVMTransaction, hm, msgOf, hn, hg]
        exact_mod_cast not_lt.mp hb
      simp [applySputnikTransaction, hp, hm, hg]

/-- Closed instance of the gas-pool frame theorem: with the pre-checks
passing and `usedGas = 90000`, a 21000-gas transaction against a
100000-gas header is rejected with `gas_limit_reached`, and the pool is
returned untouched. -/
theorem applySputnikTransaction_gp_frame_witness :
    (applySputnikTransaction extT cfgFrontier headerT txT 90000 100000 sT).err
        = some .gasLimitReached
    ∧ (applySputnikTransaction extT cfgFrontier headerT txT 90000 100000 sT).gp
        = 100000 := by
  constructor
  · exact ((applySputnikTransaction_gp_frame extT cfgFrontier headerT txT 90000 100000
      100000 sT).2.2 3 rfl (by decide) (by decide)).mpr (by decide)
  · exact (applySputnikTransaction_gp_frame extT cfgFrontier headerT txT 90000 100000
      100000 sT).1

theorem asMessage_some_inv (tx : Transaction) (msg : Message)
    (hm : tx.asMessage = some msg) : ∃ f, tx.sender = some f ∧ msg = msgOf tx f := by
  cases hs : tx.sender with
  | none => simp [Transaction.asMessage, hs] at hm
  | some f =>
    refine ⟨f, rfl, ?_⟩
    rw [asMessage_eq tx f hs] at hm
    exact (Option.some_inj.mp hm).symm

theorem ApplyMessage_ok (ext : Ext) (msg : Message) (gp : Nat) (s : StateDB)
    (h : (ApplyMessage ext msg gp s).err = none) :
    msg.gas ≤ gp
    ∧ (ApplyMessage ext msg gp s).gasUsed = (ext.execMsg msg s).gas
    ∧ (ApplyMessage ext msg gp s).failed = (ext.execMsg msg s).failed
    ∧ (ApplyMessage ext msg gp s).statedb = (ext.execMsg msg s).state
    ∧ (ApplyMessage ext msg gp s).gp
        = gp - msg.gas + (msg.gas - (ext.execMsg msg s).gas)
    ∧ (ext.execMsg msg s).err = none := by
  revert h
  unfold ApplyMessage
  by_cases hlt : gp < msg.gas
  · simp [hlt]
  · cases he : (ext.execMsg msg s).err with
    | some e => simp [hlt, he]
    | none => simp [hlt, he]; omega

theorem applyTransaction_ok (ext : Ext) (config : ChainConfig) (header : Header)
    (tx : Transaction) (u gp : Nat) (s : StateDB)
    (h : (applyTransaction ext config header tx u gp s).err = none) :
    ∃ msg, tx.asMessage = some msg
      ∧ (ApplyMessage ext msg gp s).err = none
      ∧ (applyTransaction ext config header tx u gp s).gas
          = (ApplyMessage ext msg gp s).gasUsed
      ∧ (applyTransaction ext config header tx u gp s).usedGas
          = u + (ApplyMessage ext msg gp s).gasUsed
      ∧ (applyTransaction ext config header tx u gp s).gp = (ApplyMessage ext msg gp s).gp
      ∧ ∃ rc, (applyTransaction ext config header tx u gp s).receipt = some rc
          ∧ rc.txHash = tx.hash
          ∧ rc.gasUsed = (ApplyMessage ext msg gp s).gasUsed
          ∧ rc.cumulativeGasUsed = u + (ApplyMessage ext msg gp s).gasUsed := by
  revert h
  unfold applyTransaction
  cases hm : tx.asMessage with
  | none => intro h; simp at h
  | some msg =>
    cases he : (ApplyMessage ext msg gp s).err with
    | some e => intro h; simp [he] at h
    | none =>
      intro _
      refine ⟨msg, rfl, he, ?_⟩
      simp only [he]
      refine ⟨by trivial, by trivial, by trivial, ?_⟩
      refine ⟨_, rfl, ?_, ?_, ?_⟩ <;>
        cases h658 : config.isEIP658F header.number <;>
        cases hto : msg.toA <;>
          simp [h658, hto, newReceipt]

theorem applySputnikTransaction_ok (ext : Ext) (config : ChainConfig) (header : Header)
    (tx : Transaction) (u gp : Nat) (s : StateDB)
    (h : (applySputnikTransaction ext config header tx u gp s).err = none) :
    ∃ msg, tx.asMessage = some msg
      ∧ precheckSputnikVMTransaction config header tx u s = none
      ∧ (applySputnikTransaction ext config header tx u gp s).gas
          = (sputnikRunVM ext config header tx msg s).usedGas
      ∧ (applySputnikTransaction ext config header tx u gp s).usedGas
          = u + (sputnikRunVM ext config header tx msg s).usedGas
      ∧ (applySputnikTransaction ext config header tx u gp s).gp = gp
      ∧ ∃ rc, (applySputnikTransaction ext config header tx u gp s).receipt = some rc
          ∧ rc.txHash = tx.hash
          ∧ rc.gasUsed = (sputnikRunVM ext config header tx msg s).usedGas
          ∧ rc.cumulativeGasUsed
              = u + (sputnikRunVM ext config header tx msg s).usedGas := by
  revert h
  unfold applySputnikTransaction
  cases hp : precheckSputnikVMTransaction config header tx u s with
  | some e => intro h; simp at h
  | none =>
    cases hm : tx.asMessage with
    | none => intro h; simp at h
    | some msg =>
      intro _
      refine ⟨msg, rfl, rfl, by trivial, by trivial, by trivial, ?_⟩
      refine ⟨_, rfl, ?_, ?_, ?_⟩ <;>
        cases h658 : config.isEIP658F header.number <;>
        cases hto : msg.toA <;>
          simp [h658, hto, newReceipt]

theorem precheck_none_gasLimit (config : ChainConfig) (header : Header)
    (tx : Transaction) (u : Nat) (s : StateDB) (msg : Message)
    (hm : tx.asMessage = some msg)
    (hp : precheckSputnikVMTransaction config header tx u s = none) :
    u + msg.gas ≤ header.gasLimit := by
  revert hp
  unfold precheckSputnikVMTransaction
  simp only [hm]
  split
  · simp
  · split
    · simp
    · split
      · simp
      · split
        · simp
        · intro _; omega

theorem sputnikRunVM_gasBound (ext : Ext) (config : ChainConfig) (header : Header)
    (tx : Transaction) (msg : Message) (s : StateDB) (hvm : VMGasBounded ext) :
    (sputnikRunVM ext config header tx msg s).usedGas ≤ tx.gas := by
  unfold sputnikRunVM
  rw [fireLoop_usedGas]
  exact hvm _ _ _

/-- C2: on both the native and the external-VM path, when EIP-658 is active
at `header.number` the emitted receipt carries an empty post-state root
(built after `Finalise`), and when it is inactive the receipt carries the
32-byte serialisation of the root returned by `IntermediateRoot`. -/
theorem receipt_postState_policy (ext : Ext) (config : ChainConfig) (header : Header)
    (tx : Transaction) (u gp : Nat) (s : StateDB) :
    (∀ rc, (applyTransaction ext config header tx u gp s).receipt = some rc →
      (config.isEIP658F header.number = true → rc.postState = [])
      ∧ (config.isEIP658F header.number = false → rc.postState.length = 32))
    ∧ (∀ rc, (applySputnikTransaction ext config header tx u gp s).receipt = some rc →
      (config.isEIP658F header.number = true → rc.postState = [])
      ∧ (config.isEIP658F header.number = false → rc.postState.length = 32)) := by
  constructor
  · intro rc hrc
    revert hrc
    unfold applyTransaction
    cases hm : tx.asMessage with
    | none => intro hrc; simp at hrc
    | some msg =>
      cases he : (ApplyMessage ext msg gp s).err with
      | some e => intro hrc; simp [he] at hrc
      | none =>
        cases h658 : config.isEIP658F header.number <;>
        cases hto : msg.toA <;>
          (intro hrc
           simp [he, h658, hto, newReceipt] at hrc
           simp [← hrc, h658, newReceipt, hashBytes_length])
  · intro rc hrc
    revert hrc
    unfold applySputnikTransaction
    cases hp : precheckSputnikVMTransaction config header tx u s with
    | some e => intro hrc; simp at hrc
    | none =>
      cases hm : tx.asMessage with
      | none => intro hrc; simp at hrc
      | some msg =>
        cases h658 : config.isEIP658F header.number <;>
        cases hto : msg.toA <;>
          (intro hrc
           simp [h658, hto, newReceipt] at hrc
           simp [← hrc, h658, newReceipt, hashBytes_length])

/-- Closed instance of the post-state-root policy: the same concrete
transfer produces an empty root under the EIP-658 configuration and a
32-byte root under the all-inactive configuration, on both paths. -/
theorem receipt_postState_policy_witness :
    ((applyTransaction extT cfg658 headerT txT 0 100000 sT).receipt.map
        Receipt.postState) = some []
    ∧ ((applySputnikTransaction extT cfgFrontier headerT txT 0 100000 sT).receipt.map
        (fun rc => rc.postState.length)) = some 32 := by
  constructor
  · cases hrc : (applyTransaction extT cfg658 headerT txT 0 100000 sT).receipt with
    | none => exact absurd hrc (by decide)
    | some rc =>
      have h := ((receipt_postState_policy extT cfg658 headerT txT 0 100000 sT).1
        rc hrc).1 rfl
      simp [h]
  · cases hrc : (applySputnikTransaction extT cfgFrontier headerT txT 0 100000 sT).receipt with
    | none => exact absurd hrc (by decide)
    | some rc =>
      have h := ((receipt_postState_policy extT cfgFrontier headerT txT 0 100000 sT).2
        rc hrc).2 rfl
      simp [h]

/-- C4: for a contract-creation transaction (absent `to`), both paths store
in the receipt the creation address derived by `crypto.CreateAddress` from
the recovered sender and the transaction's own (pre-increment) `nonce`
field. -/
theorem receipt_contractAddress_spec (ext : Ext) (config : ChainConfig)
    (header : Header) (tx : Transaction) (u gp : Nat) (s : StateDB) (f : Address)
    (hf : tx.sender = some f) (hto : tx.toA = none) :
    (∀ rc, (applyTransaction ext config header tx u gp s).receipt = some rc →
      rc.contractAddress = ext.createAddress f tx.nonce)
    ∧ (∀ rc, (applySputnikTransaction ext config header tx u gp s).receipt = some rc →
      rc.contractAddress = ext.createAddress f tx.nonce) := by
  have hm := asMessage_eq tx f hf
  constructor
  · intro rc hrc
    revert hrc
    unfold applyTransaction
    simp only [hm]
    cases he : (ApplyMessage ext (msgOf tx f) gp s).err with
    | some e => intro hrc; simp [he] at hrc
    | none =>
      cases h658 : config.isEIP658F header.number <;>
        (intro hrc
         simp [he, h658, msgOf, hto, newReceipt] at hrc
         simp [← hrc])
  · intro rc hrc
    revert hrc
    unfold applySputnikTransaction
    cases hp : precheckSputnikVMTransaction config header tx u s with
    | some e => intro hrc; simp at hrc
    | none =>
      simp only [hm]
      cases h658 : config.isEIP658F header.number <;>
        (intro hrc
         simp [h658, msgOf, hto, newReceipt] at hrc
         simp [← hrc])

/-- Closed instance of the creation-address theorem: the concrete creation
transaction by sender 3 with nonce 0 yields `createAddress 3 0` on the
native path. -/
theorem receipt_contractAddress_spec_witness :
    ((applyTransaction extT cfg658 headerT txC 0 100000 sT).receipt.map
        Receipt.contractAddress) = some (extT.createAddress 3 0) := by
  cases hrc : (applyTransaction extT cfg658 headerT txC 0 100000 sT).receipt with
  | none => exact absurd hrc (by decide)
  | some rc =>
    have h := (receipt_contractAddress_spec extT cfg658 headerT txC 0 100000 sT 3
      rfl rfl).1 rc hrc
    simp [h, txC]

/-- C3: the external-VM adapter's pre-check rejects — with a nil receipt,
zero gas, the gas pool and state database unchanged, and without
constructing a VM — exactly per the ordered cascade: nonce-too-high, then
nonce-too-low, then insufficient balance for `gas_limit * gas_price`, then
`usedGas + gas_limit > header.gasLimit`; a transaction hitting the gas
limit exactly is admitted, one unit more is rejected. -/
theorem sputnik_precheck_spec (ext : Ext) (config : ChainConfig) (header : Header)
    (tx : Transaction) (usedGas gp : Nat) (s : StateDB) (f : Address)
    (hf : tx.sender = some f) :
    (s.getNonce f < tx.nonce →
      applySputnikTransaction ext config header tx usedGas gp s
        = { receipt := none, gas := 0, err := some .nonceTooHigh,
            usedGas := usedGas, gp := gp, statedb := s })
    ∧ (tx.nonce < s.getNonce f →
      applySputnikTransaction ext config header tx usedGas gp s
        = { receipt := none, gas := 0, err := some .nonceTooLow,
            usedGas := usedGas, gp := gp, statedb := s })
    ∧ (s.getNonce f = tx.nonce →
      s.getBalance f < (tx.gas * tx.gasPrice : Nat) →
      applySputnikTransaction ext config header tx usedGas gp s
        = { receipt := none, gas := 0, err := some .insufficientBalanceForGas,
            usedGas := usedGas, gp := gp, statedb := s })
    ∧ (s.getNonce f = tx.nonce →
      ¬(s.getBalance f < (tx.gas * tx.gasPrice : Nat)) →
      usedGas + tx.gas > header.gasLimit →
      applySputnikTransaction ext config header tx usedGas gp s
        = { receipt := none, gas := 0, err := some .gasLimitReached,
            usedGas := usedGas, gp := gp, statedb := s })
    ∧ (s.getNonce f = tx.nonce →
      ¬(s.getBalance f < (tx.gas * tx.gasPrice : Nat)) →
      usedGas + tx.gas ≤ header.gasLimit →
      (applySputnikTransaction ext config header tx usedGas gp s).err = none)
    ∧ (∀ e, (applySputnikTransaction ext config header tx usedGas gp s).err = some e →
      ∀ nv, applySputnikTransaction { ext with newVM := nv } config header tx usedGas gp s
        = applySputnikTransaction ext config header tx usedGas gp s) := by
  have hm := asMessage_eq tx f hf
  refine ⟨?_, ?_, ?_, ?_, ?_, ?_⟩
  · intro hlt
    have hp : precheckSputnikVMTransaction config header tx usedGas s
        = some .nonceTooHigh := by
      simp [precheckSputnikVMTransaction, hm, msgOf, hlt]
    simp [applySputnikTransaction, hp]
  · intro hgt
    have h1 : ¬(s.getNonce f < tx.nonce) := by omega
    have hp : precheckSputnikVMTransaction config header tx usedGas s
        = some .nonceTooLow := by
      simp [precheckSputnikVMTransaction, hm, msgOf, h1, hgt]
    simp [applySputnikTransaction, hp]
  · intro heq hbal
    have hp : precheckSputnikVMTransaction config header tx usedGas s
        = some .insufficientBalanceForGas := by
      simp [precheckSputnikVMTransaction, hm, msgOf, heq]
      exact_mod_cast hbal
    simp [applySputnikTransaction, hp]
  · intro heq hbal hgas
    have hp : precheckSputnikVMTransaction config header tx usedGas s
        = some .gasLimitReached := by
      simp [precheckSputnikVMTransaction, hm, msgOf, heq, hgas]
      exact_mod_cast not_lt.mp hbal
    simp [applySputnikTransaction, hp]
  · intro heq hbal hgas
    have h1 : ¬(usedGas + tx.gas > header.gasLimit) := by omega
    have hp : precheckSputnikVMTransaction config header tx usedGas s = none := by
      simp [precheckSputnikVMTransaction, hm, msgOf, heq, h1]
      exact_mod_cast not_lt.mp hbal
    simp [applySputnikTransaction, hp, hm]
  · intro e he nv
    cases hp : precheckSputnikVMTransaction config header tx usedGas s with
    | some e2 => simp [applySputnikTransaction, hp]
    | none => simp [applySputnikTransaction, hp, hm] at he

/-- Closed instance of the pre-check theorem at the gas-limit boundary: at
`usedGas = 79000` the 21000-gas transaction makes the sum exactly the
100000 header limit and is admitted; at `usedGas = 79001` it is rejected
with `gas_limit_reached` and nothing is changed. -/
theorem sputnik_precheck_spec_witness :
    (applySputnikTransaction extT cfgFrontier headerT txT 79000 100000 sT).err = none
    ∧ applySputnikTransaction extT cfgFrontier headerT txT 79001 100000 sT
        = { receipt := none, gas := 0, err := some .gasLimitReached,
            usedGas := 79001, gp := 100000, statedb := sT } := by
  constructor
  · exact (sputnik_precheck_spec extT cfgFrontier headerT txT 79000 100000 sT 3
      rfl).2.2.2.2.1 (by decide) (by decide) (by decide)
  · exact (sputnik_precheck_spec extT cfgFrontier headerT txT 79001 100000 sT 3
      rfl).2.2.2.1 (by decide) (by decide) (by decide)

theorem foldSetState_traces (kvs : List (Hash × Hash)) :
    ∀ (a : Address) (s : StateDB),
      ((kvs.foldl (fun t kv => t.setState a kv.1 kv.2) s).finaliseTrace
          = s.finaliseTrace)
      ∧ ((kvs.foldl (fun t kv => t.setState a kv.1 kv.2) s).rootTrace
          = s.rootTrace) := by
  induction kvs with
  | nil => intro a s; exact ⟨rfl, rfl⟩
  | cons kv rest ih =>
    intro a s
    simpa using ih a (s.setState a kv.1 kv.2)

theorem applyAccountChange_traces (s : StateDB) (c : AccountChange) :
    ((applyAccountChange s c).finaliseTrace = s.finaliseTrace)
    ∧ ((applyAccountChange s c).rootTrace = s.rootTrace) := by
  cases c with
  | increaseBalance a amt => exact ⟨rfl, rfl⟩
  | decreaseBalance a amt => exact ⟨rfl, rfl⟩
  | removed a => exact ⟨rfl, rfl⟩
  | full a n b code st =>
    simpa [applyAccountChange] using
      foldSetState_traces st a (((s.setBalance a b).setNonce a n).setCode a code)
  | create a n b code st =>
    simpa [applyAccountChange] using
      foldSetState_traces st a (((s.setBalance a b).setNonce a n).setCode a code)

theorem applyAccountChanges_traces (l : List AccountChange) :
    ∀ s : StateDB,
      ((applyAccountChanges s l).finaliseTrace = s.finaliseTrace)
      ∧ ((applyAccountChanges s l).rootTrace = s.rootTrace) := by
  induction l with
  | nil => intro s; exact ⟨rfl, rfl⟩
  | cons c rest ih =>
    intro s
    have h1 := applyAccountChange_traces s c
    have h2 := ih (applyAccountChange s c)
    exact ⟨h2.1.trans h1.1, h2.2.trans h1.2⟩

theorem addSputnikLogs_traces (ls : List SVMLog) :
    ∀ (n : Nat) (s : StateDB),
      ((addSputnikLogs s n ls).finaliseTrace = s.finaliseTrace)
      ∧ ((addSputnikLogs s n ls).rootTrace = s.rootTrace) := by
  induction ls with
  | nil => intro n s; exact ⟨rfl, rfl⟩
  | cons l rest ih =>
    intro n s
    simpa [addSputnikLogs] using
      ih n (s.addLog ⟨l.address, l.topics, l.data, n⟩)

theorem sputnikPostState_traces (ext : Ext) (config : ChainConfig) (header : Header)
    (tx : Transaction) (msg : Message) (s : StateDB) :
    ((sputnikPostState ext config header tx msg s).finaliseTrace = s.finaliseTrace)
    ∧ ((sputnikPostState ext config header tx msg s).rootTrace = s.rootTrace) := by
  unfold sputnikPostState
  have h1 := applyAccountChanges_traces
    (sputnikRunVM ext config header tx msg s).accountChanges s
  have h2 := addSputnikLogs_traces (sputnikRunVM ext config header tx msg s).vmLogs
    header.number (applyAccountChanges s (sputnikRunVM ext config header tx msg s).accountChanges)
  exact ⟨h2.1.trans h1.1, h2.2.trans h1.2⟩

/-- C7: on the EIP-658-active branch, the external-VM adapter passes the
delete-empty flag to `Finalise` as the constant `true`, independent of
EIP-161, while the native applier passes the EIP-161 activation flag; on
the pre-EIP-658 branch both paths pass the EIP-161 activation flag to
`IntermediateRoot`. -/
theorem finalise_flag_policy (ext : Ext) (config : ChainConfig) (header : Header)
    (tx : Transaction) (u gp : Nat) (s : StateDB) (hpres : ExecPreservesTraces ext) :
    (config.isEIP658F header.number = true →
      ((applySputnikTransaction ext config header tx u gp s).err = none →
        (applySputnikTransaction ext config header tx u gp s).statedb.finaliseTrace
          = s.finaliseTrace ++ [true])
      ∧ ((applyTransaction ext config header tx u gp s).err = none →
        (applyTransaction ext config header tx u gp s).statedb.finaliseTrace
          = s.finaliseTrace ++ [config.isEIP161F header.number]))
    ∧ (config.isEIP658F header.number = false →
      ((applySputnikTransaction ext config header tx u gp s).err = none →
        (applySputnikTransaction ext config header tx u gp s).statedb.rootTrace
          = s.rootTrace ++ [config.isEIP161F header.number])
      ∧ ((applyTransaction ext config header tx u gp s).err = none →
        (applyTransaction ext config header tx u gp s).statedb.rootTrace
          = s.rootTrace ++ [config.isEIP161F header.number])) := by
  constructor
  · intro h658
    constructor
    · intro herr
      revert herr
      unfold applySputnikTransaction
      cases hp : precheckSputnikVMTransaction config header tx u s with
      | some e => intro herr; simp at herr
      | none =>
        cases hm : tx.asMessage with
        | none => intro herr; simp at herr
        | some msg =>
          intro _
          simp only [h658, if_true]
          simp [StateDB.finalise, (sputnikPostState_traces ext config header tx msg s).1]
    · intro herr
      revert herr
      unfold applyTransaction
      cases hm : tx.asMessage with
      | none => intro herr; simp at herr
      | some msg =>
        cases he : (ApplyMessage ext msg gp s).err with
        | some e => intro herr; simp [he] at herr
        | none =>
          intro _
          have hst := (ApplyMessage_ok ext msg gp s he).2.2.2.1
          simp only [he, h658, if_true]
          simp [StateDB.finalise, hst, (hpres msg s).1]
  · intro h658
    constructor
    · intro herr
      revert herr
      unfold applySputnikTransaction
      cases hp : precheckSputnikVMTransaction config header tx u s with
      | some e => intro herr; simp at herr
      | none =>
        cases hm : tx.asMessage with
        | none => intro herr; simp at herr
        | some msg =>
          intro _
          simp only [h658]
          simp [StateDB.intermediateRoot,
            (sputnikPostState_traces ext config header tx msg s).2]
    · intro herr
      revert herr
      unfold applyTransaction
      cases hm : tx.asMessage with
      | none => intro herr; simp at herr
      | some msg =>
        cases he : (ApplyMessage ext msg gp s).err with
        | some e => intro herr; simp [he] at herr
        | none =>
          intro _
          have hst := (ApplyMessage_ok ext msg gp s he).2.2.2.1
          simp only [he, h658]
          simp [StateDB.intermediateRoot, hst, (hpres msg s).2]

/-- Closed instance of the delete-empty-flag theorem under the EIP-658
configuration with EIP-161 inactive: the adapter's `Finalise` trace is
`[true]` while the native applier's is `[false]`. -/
theorem finalise_flag_policy_witness :
    (applySputnikTransaction extT cfg658 headerT txT 0 100000 sT).statedb.finaliseTrace
        = [true]
    ∧ (applyTransaction extT cfg658 headerT txT 0 100000 sT).statedb.finaliseTrace
        = [false] := by
  have hpres : ExecPreservesTraces extT := fun msg s => ⟨rfl, rfl⟩
  have h := finalise_flag_policy extT cfg658 headerT txT 0 100000 sT hpres
  constructor
  · have h2 := (h.1 rfl).1 (by decide)
    simpa [sT] using h2
  · have h2 := (h.1 rfl).2 (by decide)
    simpa [sT] using h2

theorem sumGas_append (rs : List Receipt) (rc : Receipt) :
    sumGas (rs ++ [rc]) = sumGas rs + rc.gasUsed := by
  simp [sumGas]

theorem cumFrom_append (rs : List Receipt) :
    ∀ (t : Nat) (rc : Receipt), cumFrom t rs →
      rc.cumulativeGasUsed = t + sumGas rs + rc.gasUsed →
      cumFrom t (rs ++ [rc]) := by
  induction rs with
  | nil =>
    intro t rc _ hrc
    refine ⟨?_, trivial⟩
    simpa [sumGas] using hrc
  | cons r rest ih =>
    intro t rc h hrc
    refine ⟨h.1, ih (t + r.gasUsed) rc h.2 ?_⟩
    rw [hrc]
    simp [sumGas]
    omega

theorem cumFrom_last (rs : List Receipt) :
    ∀ t : Nat, cumFrom t rs → ∀ hne : rs ≠ [],
      (rs.getLast hne).cumulativeGasUsed = t + sumGas rs := by
  induction rs with
  | nil => intro t _ hne; exact absurd rfl hne
  | cons r rest ih =>
    intro t h hne
    cases rest with
    | nil => simpa [sumGas] using h.1
    | cons r2 rest2 =>
      have hne2 : (r2 :: rest2 : List Receipt) ≠ [] := by simp
      have h3 := ih (t + r.gasUsed) h.2 hne2
      calc ((r :: r2 :: rest2).getLast hne).cumulativeGasUsed
          = ((r2 :: rest2).getLast hne2).cumulativeGasUsed := by
            rw [List.getLast_cons hne2]
        _ = t + r.gasUsed + sumGas (r2 :: rest2) := h3
        _ = t + sumGas (r :: r2 :: rest2) := by simp [sumGas]; omega

theorem ApplyTransaction_ok (ext : Ext) (config : ChainConfig) (cfg : VMConfig)
    (header : Header) (tx : Transaction) (u gp : Nat) (s : StateDB)
    (h : (ApplyTransaction ext config cfg header tx u gp s).err = none) :
    (ApplyTransaction ext config cfg header tx u gp s).usedGas
        = u + (ApplyTransaction ext config cfg header tx u gp s).gas
    ∧ ∃ rc, (ApplyTransaction ext config cfg header tx u gp s).receipt = some rc
        ∧ rc.txHash = tx.hash
        ∧ rc.gasUsed = (ApplyTransaction ext config cfg header tx u gp s).gas
        ∧ rc.cumulativeGasUsed
            = u + (ApplyTransaction ext config cfg header tx u gp s).gas := by
  by_cases hc : cfg.evmInterpreter = "svm"
  · rw [ApplyTransaction, if_pos hc] at h ⊢
    obtain ⟨msg, hm, hp, hgas, hused, hgp, rc, hrc, hh, hg, hcum⟩ :=
      applySputnikTransaction_ok ext config header tx u gp s h
    rw [hused, hgas]
    exact ⟨rfl, rc, hrc, hh, hg, hcum⟩
  · rw [ApplyTransaction, if_neg hc] at h ⊢
    obtain ⟨msg, hm, hme, hgas, hused, hgp, rc, hrc, hh, hg, hcum⟩ :=
      applyTransaction_ok ext config header tx u gp s h
    rw [hused, hgas]
    exact ⟨rfl, rc, hrc, hh, hg, hcum⟩

theorem ApplyTransaction_gasInv (ext : Ext) (config : ChainConfig) (cfg : VMConfig)
    (header : Header) (tx : Transaction) (u gp : Nat) (s : StateDB)
    (hexec : ExecGasBounded ext) (hvm : VMGasBounded ext)
    (h : (ApplyTransaction ext config cfg header tx u gp s).err = none) :
    (cfg.evmInterpreter = "svm" →
      (ApplyTransaction ext config cfg header tx u gp s).gp = gp
      ∧ (ApplyTransaction ext config cfg header tx u gp s).usedGas ≤ header.gasLimit)
    ∧ (¬cfg.evmInterpreter = "svm" →
      (ApplyTransaction ext config cfg header tx u gp s).gas ≤ gp
      ∧ (ApplyTransaction ext config cfg header tx u gp s).gp
          = gp - (ApplyTransaction ext config cfg header tx u gp s).gas) := by
  constructor
  · intro hc
    rw [ApplyTransaction, if_pos hc] at h ⊢
    obtain ⟨msg, hm, hp, hgas, hused, hgp, _, _, _, _, _⟩ :=
      applySputnikTransaction_ok ext config header tx u gp s h
    refine ⟨hgp, ?_⟩
    obtain ⟨f, hf, hmsg⟩ := asMessage_some_inv tx msg hm
    have hlim : u + msg.gas ≤ header.gasLimit :=
      precheck_none_gasLimit config header tx u s msg hm hp
    have hbound : (sputnikRunVM ext config header tx msg s).usedGas ≤ tx.gas :=
      sputnikRunVM_gasBound ext config header tx msg s hvm
    have hmg : msg.gas = tx.gas := by rw [hmsg]; rfl
    rw [hused]
    omega
  · intro hc
    rw [ApplyTransaction, if_neg hc] at h ⊢
    obtain ⟨msg, hm, hme, hgas, hused, hgp, _, _, _, _, _⟩ :=
      applyTransaction_ok ext config header tx u gp s h
    obtain ⟨hle, hg, _, _, hgp2, _⟩ := ApplyMessage_ok ext msg gp s hme
    have hb : (ext.execMsg msg s).gas ≤ msg.gas := hexec msg s
    constructor
    · rw [hgas, hg]; omega
    · rw [hgas, hg, hgp, hgp2]; omega

theorem processLoop_receipts (ext : Ext) (config : ChainConfig) (cfg : VMConfig)
    (header : Header) (bhash : Hash) :
    ∀ (txs : List Transaction) (i u gp : Nat) (s : StateDB)
      (receipts : List Receipt) (logs : List Log),
      (processLoop ext config cfg header bhash txs i u gp s receipts logs).err = none →
      ∃ news,
        (processLoop ext config cfg header bhash txs i u gp s receipts logs).receipts
            = receipts ++ news
        ∧ news.length = txs.length
        ∧ ∀ (j : Nat) (hj : j < news.length) (hj2 : j < txs.length),
            (news.get ⟨j, hj⟩).txHash = (txs.get ⟨j, hj2⟩).hash := by
  intro txs
  induction txs with
  | nil =>
    intro i u gp s receipts logs _
    exact ⟨[], by simp [processLoop], rfl, fun j hj _ => absurd hj (by simp)⟩
  | cons tx rest ih =>
    intro i u gp s receipts logs herr
    cases hr : (ApplyTransaction ext config cfg header tx u gp
        (s.prepare tx.hash bhash i)).err with
    | some e => simp [processLoop, hr] at herr
    | none =>
      obtain ⟨hused, rc, hrc, hh, hg, hcumrc⟩ :=
        ApplyTransaction_ok ext config cfg header tx u gp (s.prepare tx.hash bhash i) hr
      set r := ApplyTransaction ext config cfg header tx u gp (s.prepare tx.hash bhash i)
        with hrdef
      have hstep :
          processLoop ext config cfg header bhash (tx :: rest) i u gp s receipts logs
            = processLoop ext config cfg header bhash rest (i + 1) r.usedGas r.gp r.statedb
                (receipts ++ r.receipt.toList)
                (logs ++ ((r.receipt.map Receipt.logs).getD [])) := by
        simp only [processLoop]
        rw [← hrdef, hr]
      rw [hstep] at herr ⊢
      obtain ⟨news, h1, h2, h3⟩ := ih (i + 1) r.usedGas r.gp r.statedb
        (receipts ++ r.receipt.toList) (logs ++ ((r.receipt.map Receipt.logs).getD []))
        herr
      refine ⟨rc :: news, ?_, by simp [h2], ?_⟩
      · rw [h1, hrc]
        simp
      · intro j hj hj2
        cases j with
        | zero => simpa using hh
        | succ j2 =>
          have hj3 : j2 < news.length := by simpa using hj
          have hj4 : j2 < rest.length := by simpa using hj2
          simpa using h3 j2 hj3 hj4

theorem processLoop_gas (ext : Ext) (config : ChainConfig) (cfg : VMConfig)
    (header : Header) (bhash : Hash) (hexec : ExecGasBounded ext)
    (hvm : VMGasBounded ext) :
    ∀ (txs : List Transaction) (i u gp : Nat) (s : StateDB)
      (receipts : List Receipt) (logs : List Log),
      cumFrom 0 receipts →
      sumGas receipts = u →
      (if cfg.evmInterpreter = "svm" then u ≤ header.gasLimit
        else u + gp = header.gasLimit) →
      (processLoop ext config cfg header bhash txs i u gp s receipts logs).err = none →
      cumFrom 0 (processLoop ext config cfg header bhash txs i u gp s receipts logs).receipts
      ∧ sumGas (processLoop ext config cfg header bhash txs i u gp s receipts logs).receipts
          = (processLoop ext config cfg header bhash txs i u gp s receipts logs).usedGas
      ∧ (processLoop ext config cfg header bhash txs i u gp s receipts logs).usedGas
          ≤ header.gasLimit := by
  intro txs
  induction txs with
  | nil =>
    intro i u gp s receipts logs hcum hsum hinv _
    refine ⟨by simpa [processLoop] using hcum, by simpa [processLoop] using hsum, ?_⟩
    have hout : (processLoop ext config cfg header bhash [] i u gp s receipts logs).usedGas
        = u := by simp [processLoop]
    rw [hout]
    by_cases hc : cfg.evmInterpreter = "svm"
    · rw [if_pos hc] at hinv; exact hinv
    · rw [if_neg hc] at hinv; omega
  | cons tx rest ih =>
    intro i u gp s receipts logs hcum hsum hinv herr
    cases hr : (ApplyTransaction ext config cfg header tx u gp
        (s.prepare tx.hash bhash i)).err with
    | some e => simp [processLoop, hr] at herr
    | none =>
      obtain ⟨hused, rc, hrc, hh, hg, hcumrc⟩ :=
        ApplyTransaction_ok ext config cfg header tx u gp (s.prepare tx.hash bhash i) hr
      have hginv := ApplyTransaction_gasInv ext config cfg header tx u gp
        (s.prepare tx.hash bhash i) hexec hvm hr
      set r := ApplyTransaction ext config cfg header tx u gp (s.prepare tx.hash bhash i)
        with hrdef
      have hstep :
          processLoop ext config cfg header bhash (tx :: rest) i u gp s receipts logs
            = processLoop ext config cfg header bhash rest (i + 1) r.usedGas r.gp r.statedb
                (receipts ++ r.receipt.toList)
                (logs ++ ((r.receipt.map Receipt.logs).getD [])) := by
        simp only [processLoop]
        rw [← hrdef, hr]
      rw [hstep] at herr ⊢
      have hcum2 : cumFrom 0 (receipts ++ r.receipt.toList) := by
        rw [hrc]
        refine cumFrom_append receipts 0 rc hcum ?_
        rw [hcumrc, hg, hsum]
        omega
      have hsum2 : sumGas (receipts ++ r.receipt.toList) = r.usedGas := by
        rw [hrc]
        show sumGas (receipts ++ [rc]) = r.usedGas
        rw [sumGas_append, hsum, hg, hused]
      have hinv2 : if cfg.evmInterpreter = "svm" then r.usedGas ≤ header.gasLimit
          else r.usedGas + r.gp = header.gasLimit := by
        by_cases hc : cfg.evmInterpreter = "svm"
        · rw [if_pos hc]
          exact (hginv.1 hc).2
        · rw [if_neg hc]
          rw [if_neg hc] at hinv
          obtain ⟨hle, hgp⟩ := hginv.2 hc
          rw [hused, hgp]
          omega
      exact ih (i + 1) r.usedGas r.gp r.statedb (receipts ++ r.receipt.toList)
        (logs ++ ((r.receipt.map Receipt.logs).getD [])) hcum2 hsum2 hinv2 herr


/-- C1: `Process` is all-or-nothing — if applying any transaction errors,
it returns that error with nil receipts, nil logs and zero total gas; if
every application succeeds it returns exactly one receipt per transaction
in inclusion order, receipt `i` carrying transaction `i`'s hash. -/
theorem process_all_or_nothing (ext : Ext) (config : ChainConfig) (block : Block)
    (s : StateDB) (cfg : VMConfig) :
    ((Process ext config block s cfg).err.isSome →
      (Process ext config block s cfg).receipts = []
      ∧ (Process ext config block s cfg).logs = []
      ∧ (Process ext config block s cfg).usedGas = 0)
    ∧ ((Process ext config block s cfg).err = none →
      (Process ext config block s cfg).receipts.length = block.transactions.length
      ∧ ∀ (j : Nat) (hj : j < (Process ext config block s cfg).receipts.length)
          (hj2 : j < block.transactions.length),
          ((Process ext config block s cfg).receipts.get ⟨j, hj⟩).txHash
            = (block.transactions.get ⟨j, hj2⟩).hash) := by
  cases hE : (processLoop ext config cfg block.header block.header.hash
      block.transactions 0 0 block.header.gasLimit
      (if config.daoForkSupport ∧ config.daoForkBlock = some block.header.number
        then ext.daoFork s else s) [] []).err with
  | some e =>
    constructor
    · intro _
      refine ⟨?_, ?_, ?_⟩ <;> simp [Process, hE]
    · intro hnone
      exfalso
      simp [Process, hE] at hnone
  | none =>
    constructor
    · intro hsome
      exfalso
      simp [Process, hE] at hsome
    · intro _
      obtain ⟨news, h1, h2, h3⟩ := processLoop_receipts ext config cfg block.header
        block.header.hash block.transactions 0 0 block.header.gasLimit
        (if config.daoForkSupport ∧ config.daoForkBlock = some block.header.number
          then ext.daoFork s else s) [] [] hE
      have hR : (Process ext config block s cfg).receipts = news := by
        simp [Process, hE, h1]
      constructor
      · rw [hR, h2]
      · intro j hj hj2
        revert hj
        rw [hR]
        intro hj
        exact h3 j hj hj2

/-- Closed instance of the all-or-nothing theorem: a block whose only
transaction has a malformed signature yields no receipts and zero gas,
while a two-transaction block processes to exactly two receipts. -/
theorem process_all_or_nothing_witness :
    (Process extT cfgFrontier blockBad sT vmcNative).receipts = []
    ∧ (Process extT cfgFrontier blockBad sT vmcNative).usedGas = 0
    ∧ (Process extT cfgFrontier blockT2 sT vmcNative).receipts.length = 2 := by
  have h1 := (process_all_or_nothing extT cfgFrontier blockBad sT vmcNative).1
    (by decide)
  have h2 := (process_all_or_nothing extT cfgFrontier blockT2 sT vmcNative).2
    (by decide)
  refine ⟨h1.1, h1.2.2, ?_⟩
  rw [h2.1]
  decide

/-- C5: for every block `Process` completes without error (given the
interpreter and VM oracles respect their gas bounds), each receipt's
`cumulativeGasUsed` is the running sum of per-transaction `gasUsed` in
inclusion order, the sum of all `gasUsed` equals the last receipt's
`cumulativeGasUsed` and the returned total, and the total never exceeds
the block's gas limit. -/
theorem process_gas_accounting (ext : Ext) (config : ChainConfig) (block : Block)
    (s : StateDB) (cfg : VMConfig) (hexec : ExecGasBounded ext)
    (hvm : VMGasBounded ext) (herr : (Process ext config block s cfg).err = none) :
    cumFrom 0 (Process ext config block s cfg).receipts
    ∧ sumGas (Process ext config block s cfg).receipts = (Process ext config block s cfg).usedGas
    ∧ (∀ hne : (Process ext config block s cfg).receipts ≠ [],
        ((Process ext config block s cfg).receipts.getLast hne).cumulativeGasUsed = (Process ext config block s cfg).usedGas)
    ∧ (Process ext config block s cfg).usedGas ≤ block.header.gasLimit := by
  cases hE : (processLoop ext config cfg block.header block.header.hash
      block.transactions 0 0 block.header.gasLimit
      (if config.daoForkSupport ∧ config.daoForkBlock = some block.header.number
        then ext.daoFork s else s) [] []).err with
  | some e =>
    exfalso
    simp [Process, hE] at herr
  | none =>
    obtain ⟨hcum, hsum, hle⟩ := processLoop_gas ext config cfg block.header
      block.header.hash hexec hvm block.transactions 0 0 block.header.gasLimit
      (if config.daoForkSupport ∧ config.daoForkBlock = some block.header.number
        then ext.daoFork s else s) [] [] trivial rfl (by split <;> omega) hE
    have hR : (Process ext config block s cfg).receipts
        = (processLoop ext config cfg block.header block.header.hash
      block.transactions 0 0 block.header.gasLimit
      (if config.daoForkSupport ∧ config.daoForkBlock = some block.header.number
        then ext.daoFork s else s) [] []).receipts := by
      simp [Process, hE]
    have hG : (Process ext config block s cfg).usedGas
        = (processLoop ext config cfg block.header block.header.hash
      block.transactions 0 0 block.header.gasLimit
      (if config.daoForkSupport ∧ config.daoForkBlock = some block.header.number
        then ext.daoFork s else s) [] []).usedGas := by
      simp [Process, hE]
    refine ⟨?_, ?_, ?_, ?_⟩
    · rw [hR]; exact hcum
    · rw [hR, hG]; exact hsum
    · intro hne
      revert hne
      rw [hR, hG]
      intro hne
      have h4 := cumFrom_last _ 0 hcum hne
      simpa [hsum] using h4
    · rw [hG]; exact hle

/-- Closed instance of the gas-accounting theorem: the two-transaction
block on the external-VM path uses 74000 gas in total, equal to the sum of
per-receipt gas and within the 100000 block gas limit. -/
theorem process_gas_accounting_witness :
    sumGas (Process extT cfgFrontier blockT2 sT vmcSvm).receipts
        = (Process extT cfgFrontier blockT2 sT vmcSvm).usedGas
    ∧ (Process extT cfgFrontier blockT2 sT vmcSvm).usedGas
        ≤ blockT2.header.gasLimit := by
  have hexec : ExecGasBounded extT := fun msg s => Nat.le_refl _
  have hvm : VMGasBounded extT := fun p t h => Nat.le_refl _
  have h := process_gas_accounting extT cfgFrontier blockT2 sT vmcSvm hexec hvm
    (by decide)
  exact ⟨h.2.1, h.2.2.2⟩

/-- The claim that the two appliers produce bit-identical receipts fails on
the code: at a concrete transfer on which both backends execute identically
(same gas, same failure flag, no state changes, no logs), the native
receipt carries `blockNumber = 5` from the header while the adapter leaves
the scope fields at their zero values. -/
theorem appliers_bit_identical_counterexample :
    (applyTransaction extT cfg658 headerT txT 0 100000 sT).receipt
      ≠ (applySputnikTransaction extT cfg658 headerT txT 0 100000 sT).receipt := by
  decide

/-- C6 (amended): given the same pre-state, configuration and rule-set, and
a deterministic transaction on which the two backends' executions agree
(same post-execution state, same reported gas, same failure flag), the
native applier and the external-VM adapter produce receipts identical in
every field except `blockHash`, `blockNumber` and `transactionIndex`: the
native path copies those from the state database's scope and the header,
while `applySputnikTransaction` leaves them at their zero values. -/
theorem appliers_agree_modulo_scope (ext : Ext) (config : ChainConfig)
    (header : Header) (tx : Transaction) (u gp : Nat) (s : StateDB) (f : Address)
    (hf : tx.sender = some f)
    (hpre : precheckSputnikVMTransaction config header tx u s = none)
    (hgp : ¬ gp < tx.gas)
    (hee : (ext.execMsg (msgOf tx f) s).err = none)
    (hstate : (ext.execMsg (msgOf tx f) s).state
        = sputnikPostState ext config header tx (msgOf tx f) s)
    (hgas : (ext.execMsg (msgOf tx f) s).gas
        = (sputnikRunVM ext config header tx (msgOf tx f) s).usedGas)
    (hfail : (ext.execMsg (msgOf tx f) s).failed
        = (sputnikRunVM ext config header tx (msgOf tx f) s).failed) :
    ∃ rcN rcS,
      (applyTransaction ext config header tx u gp s).receipt = some rcN
      ∧ (applySputnikTransaction ext config header tx u gp s).receipt = some rcS
      ∧ rcN.postState = rcS.postState
      ∧ rcN.failed = rcS.failed
      ∧ rcN.cumulativeGasUsed = rcS.cumulativeGasUsed
      ∧ rcN.txHash = rcS.txHash
      ∧ rcN.contractAddress = rcS.contractAddress
      ∧ rcN.logs = rcS.logs
      ∧ rcN.bloom = rcS.bloom
      ∧ rcN.gasUsed = rcS.gasUsed
      ∧ rcS.blockHash = 0
      ∧ rcS.blockNumber = 0
      ∧ rcS.transactionIndex = 0
      ∧ rcN.blockNumber = header.number := by
  have hm := asMessage_eq tx f hf
  have hAM : ApplyMessage ext (msgOf tx f) gp s
      = { statedb := sputnikPostState ext config header tx (msgOf tx f) s,
          gasUsed := (sputnikRunVM ext config header tx (msgOf tx f) s).usedGas,
          failed := (sputnikRunVM ext config header tx (msgOf tx f) s).failed,
          gp := gp - (msgOf tx f).gas
            + ((msgOf tx f).gas
                - (sputnikRunVM ext config header tx (msgOf tx f) s).usedGas),
          err := none } := by
    unfold ApplyMessage
    have hgp2 : ¬ gp < (msgOf tx f).gas := hgp
    rw [if_neg hgp2]
    simp [hee, hstate, hgas, hfail]
  unfold applyTransaction applySputnikTransaction
  simp only [hm, hpre, hAM]
  cases h658 : config.isEIP658F header.number <;> cases hto : tx.toA <;>
    (refine ⟨_, _, rfl, rfl, ?_, ?_, ?_, ?_, ?_, ?_, ?_, ?_, ?_, ?_, ?_, ?_⟩ <;>
      simp [h658, hto, msgOf, newReceipt, hfail, StateDB.finalise,
        StateDB.intermediateRoot, StateDB.getLogs])

/-- Closed instance of the amended round-trip theorem: on the concrete
transfer with agreeing oracles, both receipts exist, agree on `gasUsed`,
and differ only in the scope fields (`blockNumber` 5 versus 0). -/
theorem appliers_agree_modulo_scope_witness :
    ∃ rcN rcS,
      (applyTransaction extT cfg658 headerT txT 0 100000 sT).receipt = some rcN
      ∧ (applySputnikTransaction extT cfg658 headerT txT 0 100000 sT).receipt = some rcS
      ∧ rcN.gasUsed = rcS.gasUsed
      ∧ rcS.blockNumber = 0
      ∧ rcN.blockNumber = 5 := by
  obtain ⟨rcN, rcS, h1, h2, hps, hfl, hcg, hth, hca, hlg, hbl, hgu, hbh0, hbn0, hti0, hbn⟩ :=
    appliers_agree_modulo_scope extT cfg658 headerT txT 0 100000 sT 3 rfl
      (by decide) (by decide) (by decide) (by decide) (by decide) (by decide)
  exact ⟨rcN, rcS, h1, h2, hgu, hbn0, by simpa [headerT] using hbn⟩
